import Mathlib

/-!
Verification of the Bank Reconciliation Engine (`reconcile_bank.py`).

Shallow embedding conventions:
* monetary amounts are rationals (`ℚ`), so float arithmetic is exact arithmetic;
* dates are integer day numbers (`ℤ`); `(a - b).days` is `(a - b).natAbs` when
  taking the absolute difference;
* a pandas cell that may be NaN (the result of `pd.to_numeric(..., errors='coerce')`
  without `fillna`) is an `Option ℚ`, `none` standing for NaN;
* DataFrames are Lists of row structures; `df.index` after `reset_index` is the
  positional index, so enumerated lists `List (Nat × Row)` model indexed frames.
-/

namespace BankRecon

/-- Two-decimal rounding, the embedding of `round(x, 2)`. -/
def round2 (q : ℚ) : ℚ := (round (q * 100) : ℤ) / 100

/-- `DATE_PROXIMITY_DAYS = 3`: max days apart for the amount-only match. -/
def DATE_PROXIMITY_DAYS : Nat := 3

/-- `BANK_ACCOUNT_CODE = '1020'` (Cash at Bank). -/
def BANK_ACCOUNT_CODE : String := "1020"

/-- `INTEREST_INCOME_CODE = '4110'` (Interest Income). -/
def INTEREST_INCOME_CODE : String := "4110"

/-- `AR_CODE = '1100'` (Accounts Receivable). -/
def AR_CODE : String := "1100"

/-- `BANK_CHARGES_CODE = '5920'` (Bank Charges & Fees). -/
def BANK_CHARGES_CODE : String := "5920"

/-- `INSURANCE_CODE = '5700'` (Insurance Expense). -/
def INSURANCE_CODE : String := "5700"

/-- `COMMS_CODE = '5220'` (Telephone & Internet, used for subscriptions). -/
def COMMS_CODE : String := "5220"

/-- `LOAN_CODE = '2100'` (Long-term Loans). -/
def LOAN_CODE : String := "2100"

/-- `MISC_EXPENSE_CODE = '5900'` (Non-Operating Expenses, catch-all). -/
def MISC_EXPENSE_CODE : String := "5900"

/-- `OTHER_INCOME_CODE = '4199'` (Miscellaneous income placeholder). -/
def OTHER_INCOME_CODE : String := "4199"

/-- A raw source row of `cash_ledger.xlsx` / `bank_statement.xlsx` after
`pd.to_numeric(..., errors='coerce')`: `none` in a numeric cell is NaN, i.e. a
non-numeric or blank value in a column that is present. (Absence of a whole
optional column is a column-level fact, modeled by the presence flags of
`load_bank_statement_cols`, not by the cells.) The `ref` field is the
already-stripped string form of `Reference`. -/
structure SrcRow where
  date : Int
  ref : String
  desc : String
  debit : Option ℚ
  credit : Option ℚ
  balance : Option ℚ
deriving DecidableEq, Repr

/-- A normalized in-period row: `amount` is the `_amount` column
(`> 0` = money in, `< 0` = money out). -/
structure PeriodRow where
  date : Int
  ref : String
  desc : String
  amount : ℚ
deriving DecidableEq, Repr

/-- The embedding of `.fillna(0)` on a coerced numeric cell. -/
def fillNum (v : Option ℚ) : ℚ := v.getD 0

/-- The per-cell column-fill step of both loaders for a PRESENT `Debit` /
`Credit` column: `pd.to_numeric(..., errors='coerce').fillna(0)` turns each
NaN cell into 0; `Balance` is coerced but NOT filled. (For an absent optional
bank-statement column the fill misfires — see `load_bank_statement_cols`.) -/
def fillDebitCredit (r : SrcRow) : SrcRow :=
  { r with debit := some (fillNum r.debit), credit := some (fillNum r.credit) }

/-- `load_cash_ledger`: opening balance (last row strictly before the period,
else 0.0), period rows (inside the period, `Reference != 'OB'`), closing
balance (last row at or before period end, else the opening balance), and
`_amount = Debit - Credit`. Returns `(period_rows, opening, closing)`; the
`Option ℚ` balances are `none` exactly when the extracted value is NaN. -/
def load_cash_ledger (rows : List SrcRow) (period_start period_end : Int) :
    List PeriodRow × Option ℚ × Option ℚ :=
  let df := rows.map fillDebitCredit
  let pre_period := df.filter fun r => decide (r.date < period_start)
  let opening_balance : Option ℚ :=
    match pre_period.getLast? with
    | none => some 0
    | some r => r.balance
  let period_df :=
    (df.filter fun r => decide (period_start ≤ r.date) && decide (r.date ≤ period_end)).filter
      fun r => !(r.ref == "OB")
  let at_end := df.filter fun r => decide (r.date ≤ period_end)
  let closing_balance : Option ℚ :=
    match at_end.getLast? with
    | some r => r.balance
    | none => opening_balance
  (period_df.map fun r =>
     { date := r.date, ref := r.ref, desc := r.desc,
       amount := fillNum r.debit - fillNum r.credit },
   opening_balance, closing_balance)

/-- `load_bank_statement`: identical to `load_cash_ledger` except the sign
normalization `_amount = Credit - Debit` (bank perspective). This models the
statement with both optional `Debit` / `Credit` columns present;
`load_bank_statement_cols` makes the presence flags explicit. -/
def load_bank_statement (rows : List SrcRow) (period_start period_end : Int) :
    List PeriodRow × Option ℚ × Option ℚ :=
  let df := rows.map fillDebitCredit
  let pre_period := df.filter fun r => decide (r.date < period_start)
  let opening_balance : Option ℚ :=
    match pre_period.getLast? with
    | none => some 0
    | some r => r.balance
  let period_df :=
    (df.filter fun r => decide (period_start ≤ r.date) && decide (r.date ≤ period_end)).filter
      fun r => !(r.ref == "OB")
  let at_end := df.filter fun r => decide (r.date ≤ period_end)
  let closing_balance : Option ℚ :=
    match at_end.getLast? with
    | some r => r.balance
    | none => opening_balance
  (period_df.map fun r =>
     { date := r.date, ref := r.ref, desc := r.desc,
       amount := fillNum r.credit - fillNum r.debit },
   opening_balance, closing_balance)

/-- One element of `matched_pairs`: `{'book_idx': bi, 'bank_idx': si, 'match_type': t}`. -/
structure MatchResult where
  book_idx : Nat
  bank_idx : Nat
  match_type : String
deriving DecidableEq, Repr

/-- The mutable matching state `(matched_pairs, book_matched, bank_matched)`;
the Python sets are lists used only through membership. -/
abbrev MatchState := List MatchResult × List Nat × List Nat

/-- Python `str.upper()` (characterwise, as a plain structural recursion so
that concrete instances evaluate). -/
def strUpper (s : String) : String := ⟨s.data.map Char.toUpper⟩

/-- Python `str.lower()` (characterwise). -/
def strLower (s : String) : String := ⟨s.data.map Char.toLower⟩

/-- Pass-1 predicate: `b_ref == s_ref and b_amt == s_amt` with uppercased
references and 2-decimal-rounded amounts. -/
def exactPred (b s : PeriodRow) : Bool :=
  (strUpper b.ref == strUpper s.ref) && (round2 b.amount == round2 s.amount)

/-- Pass-2 predicate: equal rounded amounts and
`abs((b_date - s_date).days) <= DATE_PROXIMITY_DAYS`. -/
def probablePred (b s : PeriodRow) : Bool :=
  (round2 b.amount == round2 s.amount) &&
    decide ((b.date - s.date).natAbs ≤ DATE_PROXIMITY_DAYS)

/-- The inner `for si in bank_df.index` scan: first statement row not yet in
`bank_matched` satisfying the pass predicate. -/
def findCandidate (p : PeriodRow → PeriodRow → Bool) (bankMatched : List Nat)
    (b : PeriodRow) (se : List (Nat × PeriodRow)) : Option (Nat × PeriodRow) :=
  se.find? fun q => !(decide (q.1 ∈ bankMatched)) && p b q.2

/-- One matching pass over the book rows. `skip = false` is Pass 1 (which
visits every book index), `skip = true` is Pass 2 (`if bi in book_matched:
continue`). On a hit the pair is appended and both indices marked matched. -/
def passAux (skip : Bool) (tag : String) (p : PeriodRow → PeriodRow → Bool)
    (se : List (Nat × PeriodRow)) :
    List (Nat × PeriodRow) → MatchState → MatchState
  | [], st => st
  | (bi, b) :: rest, (pairs, bookM, bankM) =>
    if skip && decide (bi ∈ bookM) then
      passAux skip tag p se rest (pairs, bookM, bankM)
    else
      match findCandidate p bankM b se with
      | some q =>
          passAux skip tag p se rest
            (pairs ++ [⟨bi, q.1, tag⟩], bookM ++ [bi], bankM ++ [q.1])
      | none => passAux skip tag p se rest (pairs, bookM, bankM)

/-- `match_transactions`: Pass 1 (Exact: reference + amount) then Pass 2
(Probable: amount + date proximity); returns
`(matched_pairs, book_only, bank_only)` with the unmatched rows carrying
their positional indices. -/
def match_transactions (book bank : List PeriodRow) :
    List MatchResult × List (Nat × PeriodRow) × List (Nat × PeriodRow) :=
  let be := book.enum
  let se := bank.enum
  let st1 := passAux false "Exact" exactPred se be ([], [], [])
  let st := passAux true "Probable" probablePred se be st1
  (st.1, be.filter fun q => !(decide (q.1 ∈ st.2.1)),
         se.filter fun q => !(decide (q.1 ∈ st.2.2)))

/-- `classify_book_only`: `(deposits_in_transit, outstanding_cheques)` =
(`_amount > 0` rows, `_amount < 0` rows). -/
def classify_book_only (book_only : List (Nat × PeriodRow)) :
    List (Nat × PeriodRow) × List (Nat × PeriodRow) :=
  (book_only.filter fun q => decide (0 < q.2.amount),
   book_only.filter fun q => decide (q.2.amount < 0))

/-- `classify_bank_only`: `(bank_credits, bank_debits)` =
(`_amount > 0` rows, `_amount < 0` rows). -/
def classify_bank_only (bank_only : List (Nat × PeriodRow)) :
    List (Nat × PeriodRow) × List (Nat × PeriodRow) :=
  (bank_only.filter fun q => decide (0 < q.2.amount),
   bank_only.filter fun q => decide (q.2.amount < 0))

/-- The dict returned by `categorize_bank_item`. -/
structure EntrySuggestion where
  category : String
  dr_account : String
  dr_code : String
  cr_account : String
  cr_code : String
  dr_amount : ℚ
  cr_amount : ℚ
deriving DecidableEq, Repr

/-- Whether `needle` occurs at the head of `hay` (character lists). -/
def leadsWith : List Char → List Char → Bool
  | [], _ => true
  | _ :: _, [] => false
  | a :: as, b :: bs => a == b && leadsWith as bs

/-- Substring occurrence on character lists (Python `needle in hay`). -/
def hasSub : List Char → List Char → Bool
  | [], needle => needle.isEmpty
  | h :: t, needle => leadsWith needle (h :: t) || hasSub t needle

/-- Python `kw in desc` on strings. -/
def containsKw (desc kw : String) : Bool := hasSub desc.data kw.data

/-- `categorize_bank_item(description, amount)`: the keyword classifier for
bank-only items, first matching rule wins; `desc` is lowercased once. -/
def categorize_bank_item (description : String) (amount : ℚ) : EntrySuggestion :=
  let desc := strLower description
  let abs_amt := |amount|
  if 0 < amount then
    if containsKw desc "interest" then
      { category := "Bank Interest Earned",
        dr_account := "Cash at Bank", dr_code := BANK_ACCOUNT_CODE,
        cr_account := "Interest Income", cr_code := INTEREST_INCOME_CODE,
        dr_amount := abs_amt, cr_amount := abs_amt }
    else if containsKw desc "payment" || containsKw desc "collection" ||
        containsKw desc "transfer in" then
      { category := "Direct Credit — Accounts Receivable",
        dr_account := "Cash at Bank", dr_code := BANK_ACCOUNT_CODE,
        cr_account := "Accounts Receivable", cr_code := AR_CODE,
        dr_amount := abs_amt, cr_amount := abs_amt }
    else
      { category := "Bank Credit — Investigate",
        dr_account := "Cash at Bank", dr_code := BANK_ACCOUNT_CODE,
        cr_account := "Other Income", cr_code := OTHER_INCOME_CODE,
        dr_amount := abs_amt, cr_amount := abs_amt }
  else
    if containsKw desc "charge" || containsKw desc "fee" || containsKw desc "service" then
      { category := "Bank Charges & Fees",
        dr_account := "Bank Charges & Fees", dr_code := BANK_CHARGES_CODE,
        cr_account := "Cash at Bank", cr_code := BANK_ACCOUNT_CODE,
        dr_amount := abs_amt, cr_amount := abs_amt }
    else if containsKw desc "insurance" then
      { category := "Insurance — Auto Debit",
        dr_account := "Insurance Expense", dr_code := INSURANCE_CODE,
        cr_account := "Cash at Bank", cr_code := BANK_ACCOUNT_CODE,
        dr_amount := abs_amt, cr_amount := abs_amt }
    else if containsKw desc "subscription" || containsKw desc "software" ||
        containsKw desc "saas" then
      { category := "Software / Subscription",
        dr_account := "Telephone & Internet", dr_code := COMMS_CODE,
        cr_account := "Cash at Bank", cr_code := BANK_ACCOUNT_CODE,
        dr_amount := abs_amt, cr_amount := abs_amt }
    else if containsKw desc "loan" || containsKw desc "repayment" ||
        containsKw desc "instalment" then
      { category := "Loan Repayment",
        dr_account := "Long-term Loans", dr_code := LOAN_CODE,
        cr_account := "Cash at Bank", cr_code := BANK_ACCOUNT_CODE,
        dr_amount := abs_amt, cr_amount := abs_amt }
    else if containsKw desc "dishonour" || containsKw desc "nsf" ||
        containsKw desc "returned" || containsKw desc "bounce" then
      { category := "Dishonoured Cheque",
        dr_account := "Accounts Receivable", dr_code := AR_CODE,
        cr_account := "Cash at Bank", cr_code := BANK_ACCOUNT_CODE,
        dr_amount := abs_amt, cr_amount := abs_amt }
    else
      { category := "Direct Debit — Investigate",
        dr_account := "Non-Operating Expense", dr_code := MISC_EXPENSE_CODE,
        cr_account := "Cash at Bank", cr_code := BANK_ACCOUNT_CODE,
        dr_amount := abs_amt, cr_amount := abs_amt }

/-- One adjusting-entry suggestion: the classifier dict plus the
`date` / `reference` / `description` keys added by `build_adjusting_entries`. -/
structure AdjustingEntry extends EntrySuggestion where
  date : Int
  reference : String
  description : String
deriving DecidableEq, Repr

/-- `build_adjusting_entries(bank_credits, bank_debits, period_end)`: one
suggestion per bank-only item, credits first then debits, in row order. -/
def build_adjusting_entries
    (bank_credits bank_debits : List (Nat × PeriodRow)) : List AdjustingEntry :=
  (bank_credits.map fun q =>
    { toEntrySuggestion := categorize_bank_item q.2.desc q.2.amount,
      date := q.2.date, reference := q.2.ref, description := q.2.desc }) ++
  (bank_debits.map fun q =>
    { toEntrySuggestion := categorize_bank_item q.2.desc q.2.amount,
      date := q.2.date, reference := q.2.ref, description := q.2.desc })

/-- The double-entry check of `write_adjusting_entries`: accumulate
`total_dr` and `total_cr` over the entries and test
`round(total_dr - total_cr, 2) == 0`. -/
def adjusting_entries_balanced (entries : List AdjustingEntry) : Bool :=
  let total_dr := entries.foldl (fun acc e => acc + e.dr_amount) 0
  let total_cr := entries.foldl (fun acc e => acc + e.cr_amount) 0
  round2 (total_dr - total_cr) == 0

/-- The dict returned by `build_reconciliation`. -/
structure ReconciliationSummary where
  book_closing : ℚ
  bank_closing : ℚ
  total_deposits_in_transit : ℚ
  total_outstanding_cheques : ℚ
  adjusted_bank : ℚ
  total_bank_credits : ℚ
  total_bank_debits : ℚ
  adjusted_book : ℚ
  difference : ℚ
  reconciled : Bool
deriving DecidableEq, Repr

/-- `build_reconciliation`: adjusted balances by ADDING the bucket totals
(outstanding cheques and bank debits are already negative), then
`difference = round(adjusted_bank - adjusted_book, 2)` and
`reconciled = (difference == 0)`. -/
def build_reconciliation (book_closing bank_closing : ℚ)
    (deposits_in_transit outstanding_cheques bank_credits bank_debits :
      List (Nat × PeriodRow)) : ReconciliationSummary :=
  let total_deposits_in_transit := (deposits_in_transit.map fun q => q.2.amount).sum
  let total_outstanding_cheques := (outstanding_cheques.map fun q => q.2.amount).sum
  let total_bank_credits := (bank_credits.map fun q => q.2.amount).sum
  let total_bank_debits := (bank_debits.map fun q => q.2.amount).sum
  let adjusted_bank := bank_closing + total_deposits_in_transit + total_outstanding_cheques
  let adjusted_book := book_closing + total_bank_credits + total_bank_debits
  let difference := round2 (adjusted_bank - adjusted_book)
  { book_closing := book_closing, bank_closing := bank_closing,
    total_deposits_in_transit := total_deposits_in_transit,
    total_outstanding_cheques := total_outstanding_cheques,
    adjusted_bank := adjusted_bank,
    total_bank_credits := total_bank_credits,
    total_bank_debits := total_bank_debits,
    adjusted_book := adjusted_book,
    difference := difference,
    reconciled := difference == 0 }

/-- The `{category, debit account, credit account}` triple of spec §4.4
(accounts with their chart-of-accounts codes). -/
structure AccountTriple where
  category : String
  dr_account : String
  dr_code : String
  cr_account : String
  cr_code : String
deriving DecidableEq, Repr

/-- Spec §4.4, inflow rule table in spec order, for the refinement proof:
each rule is a keyword alternative list with its resulting triple. -/
def inflowRules : List (List String × AccountTriple) :=
  [(["interest"],
    ⟨"Bank Interest Earned", "Cash at Bank", BANK_ACCOUNT_CODE,
     "Interest Income", INTEREST_INCOME_CODE⟩),
   (["payment", "collection", "transfer in"],
    ⟨"Direct Credit — Accounts Receivable", "Cash at Bank", BANK_ACCOUNT_CODE,
     "Accounts Receivable", AR_CODE⟩)]

/-- Spec §4.4: inflow with no keyword match. -/
def inflowDefault : AccountTriple :=
  ⟨"Bank Credit — Investigate", "Cash at Bank", BANK_ACCOUNT_CODE,
   "Other Income", OTHER_INCOME_CODE⟩

/-- Spec §4.4, outflow rule table in spec order. -/
def outflowRules : List (List String × AccountTriple) :=
  [(["charge", "fee", "service"],
    ⟨"Bank Charges & Fees", "Bank Charges & Fees", BANK_CHARGES_CODE,
     "Cash at Bank", BANK_ACCOUNT_CODE⟩),
   (["insurance"],
    ⟨"Insurance — Auto Debit", "Insurance Expense", INSURANCE_CODE,
     "Cash at Bank", BANK_ACCOUNT_CODE⟩),
   (["subscription", "software", "saas"],
    ⟨"Software / Subscription", "Telephone & Internet", COMMS_CODE,
     "Cash at Bank", BANK_ACCOUNT_CODE⟩),
   (["loan", "repayment", "instalment"],
    ⟨"Loan Repayment", "Long-term Loans", LOAN_CODE,
     "Cash at Bank", BANK_ACCOUNT_CODE⟩),
   (["dishonour", "nsf", "returned", "bounce"],
    ⟨"Dishonoured Cheque", "Accounts Receivable", AR_CODE,
     "Cash at Bank", BANK_ACCOUNT_CODE⟩)]

/-- Spec §4.4: outflow with no keyword match. -/
def outflowDefault : AccountTriple :=
  ⟨"Direct Debit — Investigate", "Non-Operating Expense", MISC_EXPENSE_CODE,
   "Cash at Bank", BANK_ACCOUNT_CODE⟩

/-- First-matching-rule-wins evaluation of an ordered rule table over a
lowercased description (spec §4.4: deterministic, ordered, case-insensitive
substring search). -/
def firstMatch (desc : String) :
    List (List String × AccountTriple) → AccountTriple → AccountTriple
  | [], dflt => dflt
  | (kws, out) :: rest, dflt =>
    if kws.any (fun k => containsKw desc k) then out else firstMatch desc rest dflt

/-- The classifier as described by spec §4.4: inflow rules for `amount > 0`,
outflow rules otherwise, case-insensitive via lowercasing. -/
def categorize_spec (description : String) (amount : ℚ) : AccountTriple :=
  let desc := strLower description
  if 0 < amount then firstMatch desc inflowRules inflowDefault
  else firstMatch desc outflowRules outflowDefault

/-- The triple actually chosen by `categorize_bank_item`. -/
def suggestionTriple (e : EntrySuggestion) : AccountTriple :=
  ⟨e.category, e.dr_account, e.dr_code, e.cr_account, e.cr_code⟩

/-- Sample book receipt (used to exercise boundary cases). -/
def rowA : PeriodRow := ⟨0, "A", "book receipt", 500⟩

/-- Sample bank deposit dated exactly 3 days after `rowA`, different reference. -/
def rowB3 : PeriodRow := ⟨3, "B", "bank deposit", 500⟩

/-- Sample bank deposit dated 4 days after `rowA`, different reference. -/
def rowB4 : PeriodRow := ⟨4, "B", "bank deposit", 500⟩

/-- Sample bank fee row (outflow). -/
def rowFee : PeriodRow := ⟨7, "CHG-1", "monthly service fee", -3⟩

/-- First of two book rows sharing reference (up to case) and amount. -/
def dupBook0 : PeriodRow := ⟨0, "R1", "first duplicate", 10⟩

/-- Second book row with the same uppercased reference and amount as `dupBook0`,
dated outside the probable window. -/
def dupBook1 : PeriodRow := ⟨9, "r1", "second duplicate", 10⟩

/-- The single statement row both `dupBook0` and `dupBook1` agree with. -/
def dupBank0 : PeriodRow := ⟨0, "R1", "statement row", 10⟩

/-- A source row whose numeric cells are all non-numeric (NaN after coercion). -/
def nanRow : SrcRow := ⟨0, "X", "blank numeric cells", none, none, none⟩

/-- An opening-balance source row (reference `OB`), dated before the period. -/
def obRow : SrcRow := ⟨0, "OB", "opening balance", none, none, some 5⟩

/-- An in-period source row with numeric cells. -/
def saleRow : SrcRow := ⟨1, "CRJ-1", "cash sale", some 7, some 0, some 12⟩

/-- The adjusting entry built from `rowB3` as a bank credit. -/
def sampleEntry : AdjustingEntry :=
  { toEntrySuggestion := categorize_bank_item rowB3.desc rowB3.amount,
    date := rowB3.date, reference := rowB3.ref, description := rowB3.desc }

/-- The value of an optional bank-statement numeric column at a row after
`df['Debit'] = pd.to_numeric(df.get('Debit', pd.Series(dtype=float)),
errors='coerce').fillna(0)` (lines 130-131). A present column is coerced and
filled cell by cell; for an absent column the `.fillna(0)` runs on the EMPTY
default Series before index alignment, so the assigned column is NaN at every
row. -/
def optColumnCell (present : Bool) (cell : Option ℚ) : Option ℚ :=
  if present then some (fillNum cell) else none

/-- Float subtraction as pandas computes `_amount = Credit - Debit`:
NaN propagates. -/
def subNaN (a b : Option ℚ) : Option ℚ :=
  match a, b with
  | some x, some y => some (x - y)
  | _, _ => none

/-- A bank-statement period row with column absence tracked: `amount` is NaN
(`none`) whenever either optional column was absent. -/
structure BankPeriodRow where
  date : Int
  ref : String
  desc : String
  amount : Option ℚ
deriving DecidableEq, Repr

/-- `load_bank_statement` with the presence of the optional `Debit` / `Credit`
columns (spec §6) made explicit. With both flags true this coincides with
`load_bank_statement` (amounts wrapped in `some`); with a column absent every
period-row `_amount` is NaN. -/
def load_bank_statement_cols (hasDebit hasCredit : Bool)
    (rows : List SrcRow) (period_start period_end : Int) :
    List BankPeriodRow × Option ℚ × Option ℚ :=
  let df := rows.map fun r =>
    { r with debit := optColumnCell hasDebit r.debit,
             credit := optColumnCell hasCredit r.credit }
  let pre_period := df.filter fun r => decide (r.date < period_start)
  let opening_balance : Option ℚ :=
    match pre_period.getLast? with
    | none => some 0
    | some r => r.balance
  let period_df :=
    (df.filter fun r => decide (period_start ≤ r.date) && decide (r.date ≤ period_end)).filter
      fun r => !(r.ref == "OB")
  let at_end := df.filter fun r => decide (r.date ≤ period_end)
  let closing_balance : Option ℚ :=
    match at_end.getLast? with
    | some r => r.balance
    | none => opening_balance
  (period_df.map fun r =>
     { date := r.date, ref := r.ref, desc := r.desc,
       amount := subNaN r.credit r.debit },
   opening_balance, closing_balance)

/-- The period row the column-aware loader produces from `saleRow` when the
optional Debit column is absent. -/
def nanAmountRow : BankPeriodRow := ⟨1, "CRJ-1", "cash sale", none⟩

/-!  Theorems.  -/

/-- Rounding a zero difference yields zero. -/
lemma round2_zero : round2 0 = 0 := by
  norm_num [round2]

/-- Every branch of `categorize_bank_item` sets both amounts to `abs(amount)`. -/
lemma categorize_dr_cr (d : String) (a : ℚ) :
    (categorize_bank_item d a).dr_amount = |a| ∧
    (categorize_bank_item d a).cr_amount = |a| := by
  simp only [categorize_bank_item]
  split_ifs <;> exact ⟨rfl, rfl⟩

/-- Folded debit and credit totals agree when they agree entrywise. -/
lemma foldl_dr_eq_foldl_cr (l : List AdjustingEntry)
    (h : ∀ e ∈ l, e.dr_amount = e.cr_amount) :
    ∀ x : ℚ, l.foldl (fun acc e => acc + e.dr_amount) x =
      l.foldl (fun acc e => acc + e.cr_amount) x := by
  induction l with
  | nil => intro x; rfl
  | cons e t ih =>
    intro x
    simp only [List.foldl_cons]
    rw [h e (List.mem_cons_self e t)]
    exact ih (fun e' he' => h e' (List.mem_cons_of_mem e he')) _

/-- C1: `build_reconciliation` computes
`adjusted_bank = bank_closing + Σ deposits_in_transit + Σ outstanding_cheques`
and `adjusted_book = book_closing + Σ bank_credits + Σ bank_debits` (by
addition, the negative buckets being already negative),
`difference = round(adjusted_bank - adjusted_book, 2)`, and `reconciled` holds
iff `difference == 0`; with all four buckets empty the adjusted balances equal
the closing balances. -/
theorem c1_reconciliation_math (book_closing bank_closing : ℚ)
    (dit oc bc bd : List (Nat × PeriodRow)) :
    (build_reconciliation book_closing bank_closing dit oc bc bd).adjusted_bank =
      bank_closing + (dit.map fun q => q.2.amount).sum + (oc.map fun q => q.2.amount).sum ∧
    (build_reconciliation book_closing bank_closing dit oc bc bd).adjusted_book =
      book_closing + (bc.map fun q => q.2.amount).sum + (bd.map fun q => q.2.amount).sum ∧
    (build_reconciliation book_closing bank_closing dit oc bc bd).difference =
      round2 ((build_reconciliation book_closing bank_closing dit oc bc bd).adjusted_bank -
        (build_reconciliation book_closing bank_closing dit oc bc bd).adjusted_book) ∧
    ((build_reconciliation book_closing bank_closing dit oc bc bd).reconciled = true ↔
      (build_reconciliation book_closing bank_closing dit oc bc bd).difference = 0) ∧
    (dit = [] → oc = [] → bc = [] → bd = [] →
      (build_reconciliation book_closing bank_closing dit oc bc bd).adjusted_bank =
        bank_closing ∧
      (build_reconciliation book_closing bank_closing dit oc bc bd).adjusted_book =
        book_closing) := by
  refine ⟨rfl, rfl, rfl, ?_, ?_⟩
  · simp [build_reconciliation]
  · rintro rfl rfl rfl rfl
    simp [build_reconciliation]

/-- Witness for C1: concrete instance with all buckets empty. -/
theorem c1_reconciliation_math_witness :
    (build_reconciliation 3 4 [] [] [] []).adjusted_bank = 4 ∧
    (build_reconciliation 3 4 [] [] [] []).adjusted_book = 3 :=
  (c1_reconciliation_math 3 4 [] [] [] []).2.2.2.2 rfl rfl rfl rfl

/-- C8: every suggestion of `build_adjusting_entries` carries equal debit and
credit amounts (the absolute value of the item's amount, credits listed first),
so the double-entry check of `write_adjusting_entries` always passes: the
unbalanced branch is unreachable. -/
theorem c8_adjusting_entries_balanced (bank_credits bank_debits : List (Nat × PeriodRow)) :
    (∀ e ∈ build_adjusting_entries bank_credits bank_debits,
      e.dr_amount = e.cr_amount) ∧
    (build_adjusting_entries bank_credits bank_debits).map (fun e => e.dr_amount) =
      (bank_credits.map fun q => |q.2.amount|) ++ (bank_debits.map fun q => |q.2.amount|) ∧
    adjusting_entries_balanced (build_adjusting_entries bank_credits bank_debits) = true := by
  have hmem : ∀ e ∈ build_adjusting_entries bank_credits bank_debits,
      e.dr_amount = e.cr_amount := by
    intro e he
    simp only [build_adjusting_entries, List.mem_append, List.mem_map] at he
    rcases he with ⟨q, _, rfl⟩ | ⟨q, _, rfl⟩ <;>
      exact (categorize_dr_cr q.2.desc q.2.amount).1.trans
        (categorize_dr_cr q.2.desc q.2.amount).2.symm
  refine ⟨hmem, ?_, ?_⟩
  · simp only [build_adjusting_entries, List.map_append, List.map_map]
    have h1 : ∀ q : Nat × PeriodRow,
        ((fun e : AdjustingEntry => e.dr_amount) ∘ fun q : Nat × PeriodRow =>
          ({ toEntrySuggestion := categorize_bank_item q.2.desc q.2.amount,
             date := q.2.date, reference := q.2.ref,
             description := q.2.desc } : AdjustingEntry)) q = |q.2.amount| := by
      intro q
      exact (categorize_dr_cr q.2.desc q.2.amount).1
    rw [List.map_congr_left fun q _ => h1 q, List.map_congr_left fun q _ => h1 q]
  · unfold adjusting_entries_balanced
    rw [foldl_dr_eq_foldl_cr _ hmem 0]
    simp [round2_zero]

/-- Witness for C8: the entry built from a concrete bank credit balances. -/
theorem c8_adjusting_entries_balanced_witness :
    sampleEntry.dr_amount = sampleEntry.cr_amount :=
  (c8_adjusting_entries_balanced [(0, rowB3)] []).1 sampleEntry
    (show sampleEntry ∈ [sampleEntry] from List.mem_singleton_self sampleEntry)

/-- C5: `classify_book_only` and `classify_bank_only` partition their input by
sign: positive amounts become deposits in transit / bank credits, negative
amounts outstanding cheques / bank debits; no row lands in both buckets and
zero-amount rows land in neither. -/
theorem c5_classify_partition (book_only bank_only : List (Nat × PeriodRow)) :
    (∀ q, q ∈ (classify_book_only book_only).1 ↔ q ∈ book_only ∧ 0 < q.2.amount) ∧
    (∀ q, q ∈ (classify_book_only book_only).2 ↔ q ∈ book_only ∧ q.2.amount < 0) ∧
    (∀ q ∈ (classify_book_only book_only).1, q ∉ (classify_book_only book_only).2) ∧
    (∀ q ∈ book_only, q.2.amount = 0 →
      q ∉ (classify_book_only book_only).1 ∧ q ∉ (classify_book_only book_only).2) ∧
    (∀ q, q ∈ (classify_bank_only bank_only).1 ↔ q ∈ bank_only ∧ 0 < q.2.amount) ∧
    (∀ q, q ∈ (classify_bank_only bank_only).2 ↔ q ∈ bank_only ∧ q.2.amount < 0) ∧
    (∀ q ∈ (classify_bank_only bank_only).1, q ∉ (classify_bank_only bank_only).2) ∧
    (∀ q ∈ bank_only, q.2.amount = 0 →
      q ∉ (classify_bank_only bank_only).1 ∧ q ∉ (classify_bank_only bank_only).2) := by
  refine ⟨?_, ?_, ?_, ?_, ?_, ?_, ?_, ?_⟩
  · intro q; simp [classify_book_only, List.mem_filter]
  · intro q; simp [classify_book_only, List.mem_filter]
  · intro q hq
    simp only [classify_book_only, List.mem_filter, decide_eq_true_eq] at hq ⊢
    intro hc
    exact absurd hq.2 (not_lt.mpr hc.2.le)
  · intro q hq h0
    simp [classify_book_only, List.mem_filter, h0]
  · intro q; simp [classify_bank_only, List.mem_filter]
  · intro q; simp [classify_bank_only, List.mem_filter]
  · intro q hq
    simp only [classify_bank_only, List.mem_filter, decide_eq_true_eq] at hq ⊢
    intro hc
    exact absurd hq.2 (not_lt.mpr hc.2.le)
  · intro q hq h0
    simp [classify_bank_only, List.mem_filter, h0]

/-- Witness for C5: a concrete positive book-only row is a deposit in transit
and not an outstanding cheque. -/
theorem c5_classify_partition_witness :
    (0, rowA) ∉ (classify_book_only [(0, rowA)]).2 :=
  (c5_classify_partition [(0, rowA)] []).2.2.1 (0, rowA)
    (by norm_num [classify_book_only, List.mem_filter, rowA])

/-- C7: `categorize_bank_item` realizes the ordered, case-insensitive,
first-match keyword rule table of spec §4.4 (`categorize_spec`) on every
inflow/outflow item, with both entry amounts equal to `abs(amount)`; in
particular an outflow described "Software subscription (auto-debit)" is
classified "Software / Subscription", Dr Telephone & Internet (5220),
Cr Cash at Bank. -/
theorem c7_categorize_follows_rules :
    (∀ (d : String) (a : ℚ), a ≠ 0 →
      suggestionTriple (categorize_bank_item d a) = categorize_spec d a ∧
      (categorize_bank_item d a).dr_amount = |a| ∧
      (categorize_bank_item d a).cr_amount = |a|) ∧
    (∀ a : ℚ, a < 0 →
      (categorize_bank_item "Software subscription (auto-debit)" a).category =
        "Software / Subscription" ∧
      (categorize_bank_item "Software subscription (auto-debit)" a).dr_account =
        "Telephone & Internet" ∧
      (categorize_bank_item "Software subscription (auto-debit)" a).dr_code = "5220" ∧
      (categorize_bank_item "Software subscription (auto-debit)" a).cr_account =
        "Cash at Bank") := by
  constructor
  · intro d a _
    refine ⟨?_, (categorize_dr_cr d a).1, (categorize_dr_cr d a).2⟩
    by_cases h : 0 < a
    · simp only [categorize_bank_item, categorize_spec, if_pos h, firstMatch,
        inflowRules, inflowDefault, List.any_cons, List.any_nil, Bool.or_false,
        Bool.or_assoc]
      split_ifs <;> rfl
    · simp only [categorize_bank_item, categorize_spec, if_neg h, firstMatch,
        outflowRules, outflowDefault, List.any_cons, List.any_nil, Bool.or_false,
        Bool.or_assoc]
      split_ifs <;> rfl
  · intro a ha
    have h : ¬ 0 < a := not_lt.mpr ha.le
    simp only [categorize_bank_item, if_neg h]
    rw [if_neg (by decide), if_neg (by decide), if_pos (by decide)]
    exact ⟨rfl, rfl, rfl, rfl⟩

/-- Witness for C7: concrete inflow agreeing with the spec table, and the
concrete subscription outflow. -/
theorem c7_categorize_follows_rules_witness :
    suggestionTriple (categorize_bank_item "Bank interest earned" 15000) =
      categorize_spec "Bank interest earned" 15000 ∧
    (categorize_bank_item "Software subscription (auto-debit)" (-18000)).category =
      "Software / Subscription" :=
  ⟨(c7_categorize_follows_rules.1 "Bank interest earned" 15000 (by norm_num)).1,
   (c7_categorize_follows_rules.2 (-18000) (by norm_num)).1⟩

/-- The matching state only grows during a pass. -/
lemma passAux_mono (skip : Bool) (tag : String) (p : PeriodRow → PeriodRow → Bool)
    (se : List (Nat × PeriodRow)) :
    ∀ (l : List (Nat × PeriodRow)) (pairs : List MatchResult) (bookM bankM : List Nat),
      pairs ⊆ (passAux skip tag p se l (pairs, bookM, bankM)).1 ∧
      bookM ⊆ (passAux skip tag p se l (pairs, bookM, bankM)).2.1 ∧
      bankM ⊆ (passAux skip tag p se l (pairs, bookM, bankM)).2.2 := by
  intro l
  induction l with
  | nil =>
    intro pairs bookM bankM
    simp only [passAux]
    exact ⟨List.Subset.refl _, List.Subset.refl _, List.Subset.refl _⟩
  | cons hd rest ih =>
    intro pairs bookM bankM
    obtain ⟨bi, b⟩ := hd
    simp only [passAux]
    by_cases hskip : (skip && decide (bi ∈ bookM)) = true
    · rw [if_pos hskip]
      exact ih pairs bookM bankM
    · rw [if_neg hskip]
      cases hfind : findCandidate p bankM b se with
      | some q =>
        obtain ⟨h1, h2, h3⟩ :=
          ih (pairs ++ [⟨bi, q.1, tag⟩]) (bookM ++ [bi]) (bankM ++ [q.1])
        exact ⟨(List.subset_append_left _ _).trans h1,
               (List.subset_append_left _ _).trans h2,
               (List.subset_append_left _ _).trans h3⟩
      | none => exact ih pairs bookM bankM

/-- Completeness of a pass: if a processed book row ends up unmatched, every
statement row satisfying the pass predicate against it ends up matched. -/
lemma passAux_complete (skip : Bool) (tag : String) (p : PeriodRow → PeriodRow → Bool)
    (se : List (Nat × PeriodRow)) :
    ∀ (l : List (Nat × PeriodRow)) (pairs : List MatchResult) (bookM bankM : List Nat)
      (bi : Nat) (b : PeriodRow),
      (bi, b) ∈ l →
      bi ∉ (passAux skip tag p se l (pairs, bookM, bankM)).2.1 →
      ∀ (si : Nat) (s : PeriodRow), (si, s) ∈ se → p b s = true →
        si ∈ (passAux skip tag p se l (pairs, bookM, bankM)).2.2 := by
  intro l
  induction l with
  | nil =>
    intro _ _ _ _ _ h
    exact absurd h (List.not_mem_nil _)
  | cons hd rest ih =>
    intro pairs bookM bankM bi b hmem hnot si s hsise hpbs
    obtain ⟨bj, b2⟩ := hd
    simp only [passAux] at hnot ⊢
    by_cases hskip : (skip && decide (bj ∈ bookM)) = true
    · rw [if_pos hskip] at hnot ⊢
      rcases List.mem_cons.mp hmem with heq | hmemr
      · injection heq with hbij hb
        subst hbij
        have hbi : bi ∈ bookM := of_decide_eq_true (Bool.and_elim_right hskip)
        exact absurd ((passAux_mono skip tag p se rest pairs bookM bankM).2.1 hbi) hnot
      · exact ih pairs bookM bankM bi b hmemr hnot si s hsise hpbs
    · rw [if_neg hskip] at hnot ⊢
      revert hnot
      cases hfind : findCandidate p bankM b2 se with
      | some q =>
        intro hnot
        rcases List.mem_cons.mp hmem with heq | hmemr
        · injection heq with hbij hb
          subst hbij
          have hbi : bi ∈ bookM ++ [bi] :=
            List.mem_append_right _ (List.mem_singleton_self _)
          exact absurd
            ((passAux_mono skip tag p se rest (pairs ++ [⟨bi, q.1, tag⟩])
              (bookM ++ [bi]) (bankM ++ [q.1])).2.1 hbi) hnot
        · exact ih _ _ _ bi b hmemr hnot si s hsise hpbs
      | none =>
        intro hnot
        rcases List.mem_cons.mp hmem with heq | hmemr
        · injection heq with hbij hb
          subst hbij
          subst hb
          have hall := List.find?_eq_none.mp hfind (si, s) hsise
          have hsibank : si ∈ bankM := by
            by_contra hni
            exact hall (by simp [hni, hpbs])
          exact (passAux_mono skip tag p se rest pairs bookM bankM).2.2 hsibank
        · exact ih pairs bookM bankM bi b hmemr hnot si s hsise hpbs

/-- The matched-pair projections stay synchronized with the matched-index sets. -/
lemma passAux_maps (skip : Bool) (tag : String) (p : PeriodRow → PeriodRow → Bool)
    (se : List (Nat × PeriodRow)) :
    ∀ (l : List (Nat × PeriodRow)) (pairs : List MatchResult) (bookM bankM : List Nat),
      pairs.map (fun m => m.book_idx) = bookM →
      pairs.map (fun m => m.bank_idx) = bankM →
      (passAux skip tag p se l (pairs, bookM, bankM)).1.map (fun m => m.book_idx) =
        (passAux skip tag p se l (pairs, bookM, bankM)).2.1 ∧
      (passAux skip tag p se l (pairs, bookM, bankM)).1.map (fun m => m.bank_idx) =
        (passAux skip tag p se l (pairs, bookM, bankM)).2.2 := by
  intro l
  induction l with
  | nil =>
    intro pairs bookM bankM h1 h2
    simp only [passAux]
    exact ⟨h1, h2⟩
  | cons hd rest ih =>
    intro pairs bookM bankM h1 h2
    obtain ⟨bi, b⟩ := hd
    simp only [passAux]
    by_cases hskip : (skip && decide (bi ∈ bookM)) = true
    · rw [if_pos hskip]
      exact ih pairs bookM bankM h1 h2
    · rw [if_neg hskip]
      cases hfind : findCandidate p bankM b se with
      | some q =>
        apply ih
        · simp [h1]
        · simp [h2]
      | none => exact ih pairs bookM bankM h1 h2

/-- Both matched-index sets stay duplicate-free (Pass 2 by its skip guard,
Pass 1 because the processed book indices are fresh and duplicate-free). -/
lemma passAux_nodup (skip : Bool) (tag : String) (p : PeriodRow → PeriodRow → Bool)
    (se : List (Nat × PeriodRow)) :
    ∀ (l : List (Nat × PeriodRow)) (pairs : List MatchResult) (bookM bankM : List Nat),
      bookM.Nodup → bankM.Nodup →
      (skip = true ∨ ((∀ q ∈ l, q.1 ∉ bookM) ∧ (l.map Prod.fst).Nodup)) →
      (passAux skip tag p se l (pairs, bookM, bankM)).2.1.Nodup ∧
      (passAux skip tag p se l (pairs, bookM, bankM)).2.2.Nodup := by
  intro l
  induction l with
  | nil =>
    intro pairs bookM bankM h1 h2 _
    simp only [passAux]
    exact ⟨h1, h2⟩
  | cons hd rest ih =>
    intro pairs bookM bankM h1 h2 hfresh
    obtain ⟨bi, b⟩ := hd
    have hrest : skip = true ∨ ((∀ q ∈ rest, q.1 ∉ bookM) ∧ (rest.map Prod.fst).Nodup) := by
      rcases hfresh with h | ⟨hf, hn⟩
      · exact Or.inl h
      · refine Or.inr ⟨fun q hq => hf q (List.mem_cons_of_mem _ hq), ?_⟩
        exact (List.nodup_cons.mp (by simpa using hn)).2
    simp only [passAux]
    by_cases hskip : (skip && decide (bi ∈ bookM)) = true
    · rw [if_pos hskip]
      exact ih pairs bookM bankM h1 h2 hrest
    · rw [if_neg hskip]
      cases hfind : findCandidate p bankM b se with
      | some q =>
        have hq := List.find?_some hfind
        have hqnot : q.1 ∉ bankM := by
          intro hmemq
          simp [hmemq] at hq
        have hbi : bi ∉ bookM := by
          rcases hfresh with hsk | ⟨hf, _⟩
          · intro hmemb
            exact absurd (by simp [hsk, hmemb] : (skip && decide (bi ∈ bookM)) = true) hskip
          · exact hf (bi, b) (List.mem_cons_self _ _)
        apply ih
        · simp [List.nodup_append, h1, hbi]
        · simp [List.nodup_append, h2, hqnot]
        · rcases hfresh with hsk | ⟨hf, hn⟩
          · exact Or.inl hsk
          · refine Or.inr ⟨?_, (List.nodup_cons.mp (by simpa using hn)).2⟩
            intro q2 hq2
            have hne : q2.1 ≠ bi := by
              intro heq
              exact (List.nodup_cons.mp (by simpa using hn)).1
                (heq ▸ List.mem_map_of_mem Prod.fst hq2)
            have hnb : q2.1 ∉ bookM := hf q2 (List.mem_cons_of_mem _ hq2)
            simp [List.mem_append, hnb, hne]
      | none => exact ih pairs bookM bankM h1 h2 hrest

/-- `find?` returns the unique element satisfying the predicate. -/
lemma find?_eq_some_of_unique {α : Type} (pq : α → Bool) (a : α) :
    ∀ l : List α, a ∈ l → pq a = true → (∀ x ∈ l, pq x = true → x = a) →
      l.find? pq = some a := by
  intro l
  induction l with
  | nil => intro h; exact absurd h (List.not_mem_nil _)
  | cons hd t ih =>
    intro hmem hpa huniq
    by_cases hph : pq hd = true
    · have heq : hd = a := huniq hd (List.mem_cons_self hd t) hph
      subst heq
      exact List.find?_cons_of_pos _ hph
    · have hma : a ∈ t := by
        rcases List.mem_cons.mp hmem with rfl | ht
        · exact absurd hpa hph
        · exact ht
      rw [List.find?_cons_of_neg _ (by simpa using hph)]
      exact ih hma hpa fun x hx hpx => huniq x (List.mem_cons_of_mem _ hx) hpx

/-- In a list with duplicate-free first components, the first component
determines the second. -/
lemma snd_unique_of_fst_nodup {α : Type} :
    ∀ l : List (Nat × α), (l.map Prod.fst).Nodup →
      ∀ (a : Nat) (x y : α), (a, x) ∈ l → (a, y) ∈ l → x = y := by
  intro l
  induction l with
  | nil => intro _ a x y h; exact absurd h (List.not_mem_nil _)
  | cons hd t ih =>
    obtain ⟨c, z⟩ := hd
    intro hn a x y hx hy
    rw [List.map_cons] at hn
    have hn2 := List.nodup_cons.mp hn
    rcases List.mem_cons.mp hx with heq1 | hxt
    · rcases List.mem_cons.mp hy with heq2 | hyt
      · injection heq1 with ha1 hx1
        injection heq2 with ha2 hy1
        rw [hx1, hy1]
      · injection heq1 with ha1 hx1
        subst ha1
        exact absurd (List.mem_map_of_mem Prod.fst hyt) hn2.1
    · rcases List.mem_cons.mp hy with heq2 | hyt
      · injection heq2 with ha2 hy1
        subst ha2
        exact absurd (List.mem_map_of_mem Prod.fst hxt) hn2.1
      · exact ih hn2.2 a x y hxt hyt

/-- If a book row and a statement row are the unique pair related by the pass
predicate, the pass matches them together (greedy first-fit cannot divert
either side, since any competing hit would also be predicate-related). -/
lemma passAux_found (skip : Bool) (tag : String) (p : PeriodRow → PeriodRow → Bool)
    (se : List (Nat × PeriodRow)) (hse : (se.map Prod.fst).Nodup)
    (bi si : Nat) (b s : PeriodRow)
    (hsise : (si, s) ∈ se) (hpbs : p b s = true)
    (huniq : ∀ q ∈ se, p b q.2 = true → q = (si, s)) :
    ∀ (l : List (Nat × PeriodRow)) (pairs : List MatchResult) (bookM bankM : List Nat),
      ((⟨bi, si, tag⟩ : MatchResult) ∈ pairs ∨
        ((bi, b) ∈ l ∧ si ∉ bankM ∧ bi ∉ bookM ∧
         (∀ q ∈ l, q.1 = bi → q.2 = b) ∧
         (∀ q ∈ l, q.1 ≠ bi → p q.2 s = false))) →
      (⟨bi, si, tag⟩ : MatchResult) ∈ (passAux skip tag p se l (pairs, bookM, bankM)).1 := by
  intro l
  induction l with
  | nil =>
    intro pairs bookM bankM hinv
    rcases hinv with hp | ⟨hmem, _⟩
    · simpa [passAux] using hp
    · exact absurd hmem (List.not_mem_nil _)
  | cons hd rest ih =>
    intro pairs bookM bankM hinv
    obtain ⟨bj, b2⟩ := hd
    rcases hinv with hp | ⟨hmem, hsib, hbib, hsame, hother⟩
    · exact (passAux_mono skip tag p se ((bj, b2) :: rest) pairs bookM bankM).1 hp
    · simp only [passAux]
      by_cases hbj : bj = bi
      · subst hbj
        have hb2 : b2 = b := hsame (bj, b2) (List.mem_cons_self _ _) rfl
        subst hb2
        have hskip : ¬ (skip && decide (bj ∈ bookM)) = true := by
          simp [hbib]
        rw [if_neg hskip]
        have hfind : findCandidate p bankM b2 se = some (si, s) := by
          apply find?_eq_some_of_unique _ _ _ hsise
          · simp [hsib, hpbs]
          · intro x hx hpx
            exact huniq x hx (Bool.and_elim_right hpx)
        rw [hfind]
        apply ih
        exact Or.inl (List.mem_append_right _ (List.mem_singleton_self _))
      · have hmemr : (bi, b) ∈ rest := by
          rcases List.mem_cons.mp hmem with heq | h
          · injection heq with h1 _
            exact absurd h1.symm hbj
          · exact h
        have hrest5 : ∀ q ∈ rest, q.1 ≠ bi → p q.2 s = false :=
          fun q hq => hother q (List.mem_cons_of_mem _ hq)
        have hrest4 : ∀ q ∈ rest, q.1 = bi → q.2 = b :=
          fun q hq => hsame q (List.mem_cons_of_mem _ hq)
        by_cases hskip : (skip && decide (bj ∈ bookM)) = true
        · rw [if_pos hskip]
          exact ih _ _ _ (Or.inr ⟨hmemr, hsib, hbib, hrest4, hrest5⟩)
        · rw [if_neg hskip]
          cases hfind : findCandidate p bankM b2 se with
          | some q =>
            have hq := List.find?_some hfind
            have hpq : p b2 q.2 = true := Bool.and_elim_right hq
            have hqse : q ∈ se := List.mem_of_find?_eq_some hfind
            have hqsi : q.1 ≠ si := by
              intro heq
              have hqs : q.2 = s := by
                apply snd_unique_of_fst_nodup se hse si
                · exact heq ▸ (Prod.mk.eta (p := q)) ▸ hqse
                · exact hsise
              have : p b2 s = false :=
                hother (bj, b2) (List.mem_cons_self _ _) hbj
              rw [hqs] at hpq
              rw [hpq] at this
              exact Bool.noConfusion this
            apply ih
            refine Or.inr ⟨hmemr, ?_, ?_, hrest4, hrest5⟩
            · intro hmm
              rcases List.mem_append.mp hmm with h | h
              · exact hsib h
              · exact hqsi (List.mem_singleton.mp h).symm
            · intro hmm
              rcases List.mem_append.mp hmm with h | h
              · exact hbib h
              · exact hbj (List.mem_singleton.mp h).symm
          | none =>
            exact ih _ _ _ (Or.inr ⟨hmemr, hsib, hbib, hrest4, hrest5⟩)

/-- Counting coverage: a duplicate-free marked set together with the
unmarked residue covers each index below `n` exactly once. -/
lemma count_coverage (n : Nat) (marked : List Nat) (hnd : marked.Nodup)
    (i : Nat) (hi : i < n) :
    marked.count i +
      ((List.range n).filter (fun j => !(decide (j ∈ marked)))).count i = 1 := by
  by_cases hm : i ∈ marked
  · rw [List.count_eq_one_of_mem hnd hm]
    have hni : i ∉ (List.range n).filter (fun j => !(decide (j ∈ marked))) := by
      simp [List.mem_filter, hm]
    rw [List.count_eq_zero_of_not_mem hni]
  · rw [List.count_eq_zero_of_not_mem hm]
    have h1 : ((List.range n).filter (fun j => !(decide (j ∈ marked)))).count i =
        (List.range n).count i := List.count_filter (by simp [hm])
    rw [h1, List.count_eq_one_of_mem (List.nodup_range n) (List.mem_range.mpr hi)]

/-- Taking first components commutes with filtering on the first component. -/
lemma map_fst_filter_not_mem (l : List (Nat × PeriodRow)) (marked : List Nat) :
    (l.filter (fun q => !(decide (q.1 ∈ marked)))).map Prod.fst =
      (l.map Prod.fst).filter (fun j => !(decide (j ∈ marked))) := by
  induction l with
  | nil => rfl
  | cons hd t ih =>
    by_cases h : hd.1 ∈ marked
    · simp [List.filter_cons, h, ih]
    · simp [List.filter_cons, h, ih]

/-- C2: matching is 1:1 — in `match_transactions` output each book index and
each bank index appears in at most one MatchResult, and every index below the
row count appears exactly once across the pairs and the corresponding
leftover (`book_only` / `bank_only`) list. -/
theorem c2_matching_one_to_one (book bank : List PeriodRow) :
    ((match_transactions book bank).1.map (fun m => m.book_idx)).Nodup ∧
    ((match_transactions book bank).1.map (fun m => m.bank_idx)).Nodup ∧
    (∀ i, i < book.length →
      ((match_transactions book bank).1.map (fun m => m.book_idx)).count i +
        ((match_transactions book bank).2.1.map Prod.fst).count i = 1) ∧
    (∀ j, j < bank.length →
      ((match_transactions book bank).1.map (fun m => m.bank_idx)).count j +
        ((match_transactions book bank).2.2.map Prod.fst).count j = 1) := by
  obtain ⟨pairs1, bookM1, bankM1, hst1⟩ :
      ∃ pairs1 bookM1 bankM1,
        passAux false "Exact" exactPred bank.enum book.enum ([], [], []) =
          (pairs1, bookM1, bankM1) := ⟨_, _, _, rfl⟩
  obtain ⟨pairs2, bookM2, bankM2, hst2⟩ :
      ∃ pairs2 bookM2 bankM2,
        passAux true "Probable" probablePred bank.enum book.enum (pairs1, bookM1, bankM1) =
          (pairs2, bookM2, bankM2) := ⟨_, _, _, rfl⟩
  have hmap1 : pairs1.map (fun m => m.book_idx) = bookM1 ∧
      pairs1.map (fun m => m.bank_idx) = bankM1 := by
    have h := passAux_maps false "Exact" exactPred bank.enum book.enum [] [] [] rfl rfl
    rw [hst1] at h
    exact h
  have hmap2 : pairs2.map (fun m => m.book_idx) = bookM2 ∧
      pairs2.map (fun m => m.bank_idx) = bankM2 := by
    have h := passAux_maps true "Probable" probablePred bank.enum book.enum
      pairs1 bookM1 bankM1 hmap1.1 hmap1.2
    rw [hst2] at h
    exact h
  have hnd1 : bookM1.Nodup ∧ bankM1.Nodup := by
    have h := passAux_nodup false "Exact" exactPred bank.enum book.enum [] [] []
      List.nodup_nil List.nodup_nil
      (Or.inr ⟨by simp, by simp [List.enum_map_fst, List.nodup_range]⟩)
    rw [hst1] at h
    exact h
  have hnd2 : bookM2.Nodup ∧ bankM2.Nodup := by
    have h := passAux_nodup true "Probable" probablePred bank.enum book.enum
      pairs1 bookM1 bankM1 hnd1.1 hnd1.2 (Or.inl rfl)
    rw [hst2] at h
    exact h
  have hmt : match_transactions book bank =
      (pairs2, book.enum.filter fun q => !(decide (q.1 ∈ bookM2)),
               bank.enum.filter fun q => !(decide (q.1 ∈ bankM2))) := by
    simp only [match_transactions, hst1, hst2]
  rw [hmt]
  refine ⟨hmap2.1 ▸ hnd2.1, hmap2.2 ▸ hnd2.2, ?_, ?_⟩
  · intro i hi
    rw [hmap2.1, map_fst_filter_not_mem, List.enum_map_fst]
    exact count_coverage book.length bookM2 hnd2.1 i hi
  · intro j hj
    rw [hmap2.2, map_fst_filter_not_mem, List.enum_map_fst]
    exact count_coverage bank.length bankM2 hnd2.2 j hj

/-- Witness for C2: concrete coverage count on a one-row instance. -/
theorem c2_matching_one_to_one_witness :
    ((match_transactions [rowA] [rowB4]).1.map (fun m => m.book_idx)).count 0 +
      ((match_transactions [rowA] [rowB4]).2.1.map Prod.fst).count 0 = 1 :=
  (c2_matching_one_to_one [rowA] [rowB4]).2.2.1 0 (by simp)

/-- C3: after `match_transactions` no book-only row and bank-only row have
equal rounded amounts with dates at most `DATE_PROXIMITY_DAYS` apart (any such
pair would have been matched in the Probable pass), and the window boundary is
inclusive: equal-amount rows exactly 3 days apart (and nothing else in common)
are Probable-matched, while rows 4 days apart stay unmatched. -/
theorem c3_probable_window_exhausted (book bank : List PeriodRow) :
    (∀ qb ∈ (match_transactions book bank).2.1,
      ∀ qs ∈ (match_transactions book bank).2.2,
        ¬(round2 qb.2.amount = round2 qs.2.amount ∧
          (qb.2.date - qs.2.date).natAbs ≤ DATE_PROXIMITY_DAYS)) ∧
    (match_transactions [rowA] [rowB3]).1 = [⟨0, 0, "Probable"⟩] ∧
    match_transactions [rowA] [rowB4] = ([], [(0, rowA)], [(0, rowB4)]) := by
  refine ⟨?_, ?_, ?_⟩
  · intro qb hqb qs hqs hcontra
    obtain ⟨pairs1, bookM1, bankM1, hst1⟩ :
        ∃ pairs1 bookM1 bankM1,
          passAux false "Exact" exactPred bank.enum book.enum ([], [], []) =
            (pairs1, bookM1, bankM1) := ⟨_, _, _, rfl⟩
    obtain ⟨pairs2, bookM2, bankM2, hst2⟩ :
        ∃ pairs2 bookM2 bankM2,
          passAux true "Probable" probablePred bank.enum book.enum (pairs1, bookM1, bankM1) =
            (pairs2, bookM2, bankM2) := ⟨_, _, _, rfl⟩
    have hmt : match_transactions book bank =
        (pairs2, book.enum.filter fun q => !(decide (q.1 ∈ bookM2)),
                 bank.enum.filter fun q => !(decide (q.1 ∈ bankM2))) := by
      simp only [match_transactions, hst1, hst2]
    rw [hmt] at hqb hqs
    obtain ⟨hqb_mem, hqb_not⟩ := List.mem_filter.mp hqb
    obtain ⟨hqs_mem, hqs_not⟩ := List.mem_filter.mp hqs
    have hbnot : qb.1 ∉ bookM2 := by simpa using hqb_not
    have hsnot : qs.1 ∉ bankM2 := by simpa using hqs_not
    have hp : probablePred qb.2 qs.2 = true := by
      simp [probablePred, hcontra.1, hcontra.2]
    have h := passAux_complete true "Probable" probablePred bank.enum
      book.enum pairs1 bookM1 bankM1 qb.1 qb.2 hqb_mem
      (by rw [hst2]; exact hbnot) qs.1 qs.2 hqs_mem hp
    rw [hst2] at h
    exact hsnot h
  · simp [match_transactions, passAux, findCandidate, exactPred, probablePred,
      rowA, rowB3, List.enum, DATE_PROXIMITY_DAYS]
  · simp [match_transactions, passAux, findCandidate, exactPred, probablePred,
      rowA, rowB4, List.enum, DATE_PROXIMITY_DAYS]

/-- Witness for C3: the universal part applied to a concrete leftover pair
with different amounts. -/
theorem c3_probable_window_exhausted_witness :
    ¬(round2 (0, rowA).2.amount = round2 (0, rowFee).2.amount ∧
      ((0, rowA).2.date - (0, rowFee).2.date).natAbs ≤ DATE_PROXIMITY_DAYS) :=
  (c3_probable_window_exhausted [rowA] [rowFee]).1 (0, rowA)
    (by simp [match_transactions, passAux, findCandidate, exactPred, probablePred,
      rowA, rowFee, List.enum, DATE_PROXIMITY_DAYS])
    (0, rowFee)
    (by simp [match_transactions, passAux, findCandidate, exactPred, probablePred,
      rowA, rowFee, List.enum, DATE_PROXIMITY_DAYS])

/-- Counterexample to C4 as stated: with two book rows sharing the uppercased
reference and rounded amount of a single statement row, the second book row
and the statement row satisfy the Exact criteria but are NOT placed in the
same MatchResult (greedy first-fit gave the statement row to the first). -/
theorem c4_counterexample :
    strUpper dupBook1.ref = strUpper dupBank0.ref ∧
    round2 dupBook1.amount = round2 dupBank0.amount ∧
    (1, dupBook1) ∈ ([dupBook0, dupBook1] : List PeriodRow).enum ∧
    (0, dupBank0) ∈ ([dupBank0] : List PeriodRow).enum ∧
    (⟨1, 0, "Exact"⟩ : MatchResult) ∉
      (match_transactions [dupBook0, dupBook1] [dupBank0]).1 := by
  refine ⟨by decide, rfl, by simp [List.enum], by simp [List.enum], ?_⟩
  simp [match_transactions, passAux, findCandidate, exactPred, probablePred,
    dupBook0, dupBook1, dupBank0, List.enum, DATE_PROXIMITY_DAYS, strUpper]

/-- C4 (amended): if a ledger row and a statement row have identical uppercased
reference and identical rounded amount, and each is the only row with that key
on its own side, then `match_transactions` places them in the same MatchResult
with kind Exact — for every ordering of the two sources, since the hypotheses
do not constrain order. (Without the uniqueness hypothesis the counterexample
shows greedy first-fit pairs a duplicate-key row elsewhere.) -/
theorem c4_exact_pair_matched (book bank : List PeriodRow)
    (bi si : Nat) (b s : PeriodRow)
    (hbook : (bi, b) ∈ book.enum) (hbank : (si, s) ∈ bank.enum)
    (href : strUpper b.ref = strUpper s.ref)
    (hamt : round2 b.amount = round2 s.amount)
    (hbu : ∀ q ∈ book.enum, strUpper q.2.ref = strUpper s.ref →
      round2 q.2.amount = round2 s.amount → q = (bi, b))
    (hsu : ∀ q ∈ bank.enum, strUpper q.2.ref = strUpper b.ref →
      round2 q.2.amount = round2 b.amount → q = (si, s)) :
    (⟨bi, si, "Exact"⟩ : MatchResult) ∈ (match_transactions book bank).1 := by
  have hbe : (book.enum.map Prod.fst).Nodup := by
    simp [List.enum_map_fst, List.nodup_range]
  have hse : (bank.enum.map Prod.fst).Nodup := by
    simp [List.enum_map_fst, List.nodup_range]
  have hp : exactPred b s = true := by
    simp [exactPred, href, hamt]
  have huniq : ∀ q ∈ bank.enum, exactPred b q.2 = true → q = (si, s) := by
    intro q hq hpq
    simp only [exactPred, Bool.and_eq_true, beq_iff_eq] at hpq
    exact hsu q hq hpq.1.symm hpq.2.symm
  have h1 : (⟨bi, si, "Exact"⟩ : MatchResult) ∈
      (passAux false "Exact" exactPred bank.enum book.enum ([], [], [])).1 := by
    apply passAux_found false "Exact" exactPred bank.enum hse bi si b s hbank hp huniq
      book.enum [] [] []
    refine Or.inr ⟨hbook, by simp, by simp, ?_, ?_⟩
    · intro q hq hq1
      have : (bi, q.2) ∈ book.enum := by
        rw [← hq1]
        exact hq
      exact snd_unique_of_fst_nodup book.enum hbe bi q.2 b this hbook
    · intro q hq hq1
      by_contra hcon
      rw [Bool.not_eq_false] at hcon
      simp only [exactPred, Bool.and_eq_true, beq_iff_eq] at hcon
      have := hbu q hq hcon.1 hcon.2
      rw [this] at hq1
      exact hq1 rfl
  have hmono := (passAux_mono true "Probable" probablePred bank.enum book.enum
    (passAux false "Exact" exactPred bank.enum book.enum ([], [], [])).1
    (passAux false "Exact" exactPred bank.enum book.enum ([], [], [])).2.1
    (passAux false "Exact" exactPred bank.enum book.enum ([], [], [])).2.2).1
  exact hmono h1

/-- Witness for C4 (amended): singleton sources with a shared key get the
Exact match. -/
theorem c4_exact_pair_matched_witness :
    (⟨0, 0, "Exact"⟩ : MatchResult) ∈ (match_transactions [dupBook0] [dupBank0]).1 := by
  apply c4_exact_pair_matched [dupBook0] [dupBank0] 0 0 dupBook0 dupBank0
  · simp [List.enum]
  · simp [List.enum]
  · rfl
  · rfl
  · intro q hq _ _
    simpa [List.enum] using hq
  · intro q hq _ _
    simpa [List.enum] using hq

/-- Filtering on fields untouched by the debit/credit fill commutes with it. -/
lemma filter_fill_comm (rows : List SrcRow) (p : SrcRow → Bool)
    (hp : ∀ r, p (fillDebitCredit r) = p r) :
    (rows.map fillDebitCredit).filter p = (rows.filter p).map fillDebitCredit := by
  induction rows with
  | nil => rfl
  | cons hd t ih =>
    simp only [List.map_cons, List.filter_cons, hp hd]
    cases h : p hd
    · simpa [h] using ih
    · simpa [h] using ih

/-- The cash-ledger opening balance is the raw `Balance` of the last row dated
strictly before the period (the fill step does not touch `Balance`). -/
lemma load_cash_ledger_opening (rows : List SrcRow) (ps pe : Int) :
    (load_cash_ledger rows ps pe).2.1 =
      (match (rows.filter fun r => decide (r.date < ps)).getLast? with
       | none => some 0
       | some r => r.balance) := by
  simp only [load_cash_ledger]
  rw [filter_fill_comm rows (fun r => decide (r.date < ps)) (fun r => rfl),
    List.getLast?_map]
  cases (rows.filter fun r => decide (r.date < ps)).getLast? <;> rfl

/-- Bank-statement version of `load_cash_ledger_opening`. -/
lemma load_bank_statement_opening (rows : List SrcRow) (ps pe : Int) :
    (load_bank_statement rows ps pe).2.1 =
      (match (rows.filter fun r => decide (r.date < ps)).getLast? with
       | none => some 0
       | some r => r.balance) := by
  simp only [load_bank_statement]
  rw [filter_fill_comm rows (fun r => decide (r.date < ps)) (fun r => rfl),
    List.getLast?_map]
  cases (rows.filter fun r => decide (r.date < ps)).getLast? <;> rfl

/-- The cash-ledger closing balance is the raw `Balance` of the last row at or
before period end, falling back to the opening balance. -/
lemma load_cash_ledger_closing (rows : List SrcRow) (ps pe : Int) :
    (load_cash_ledger rows ps pe).2.2 =
      (match (rows.filter fun r => decide (r.date ≤ pe)).getLast? with
       | some r => r.balance
       | none => (load_cash_ledger rows ps pe).2.1) := by
  conv_lhs => simp only [load_cash_ledger]
  rw [filter_fill_comm rows (fun r => decide (r.date ≤ pe)) (fun r => rfl),
    List.getLast?_map]
  cases (rows.filter fun r => decide (r.date ≤ pe)).getLast? <;> rfl

/-- Bank-statement version of `load_cash_ledger_closing`. -/
lemma load_bank_statement_closing (rows : List SrcRow) (ps pe : Int) :
    (load_bank_statement rows ps pe).2.2 =
      (match (rows.filter fun r => decide (r.date ≤ pe)).getLast? with
       | some r => r.balance
       | none => (load_bank_statement rows ps pe).2.1) := by
  conv_lhs => simp only [load_bank_statement]
  rw [filter_fill_comm rows (fun r => decide (r.date ≤ pe)) (fun r => rfl),
    List.getLast?_map]
  cases (rows.filter fun r => decide (r.date ≤ pe)).getLast? <;> rfl

/-- C6: the Period Loader returns as period rows exactly the rows inside
`[start, end]` whose reference is not the opening-balance marker `OB` (with
the source's sign normalization), as opening balance the `Balance` of the
last row strictly before `start` (0.0 when none exists), and as closing
balance the `Balance` of the last row at or before `end`. -/
theorem c6_period_loader (rows : List SrcRow) (ps pe : Int) :
    ((load_cash_ledger rows ps pe).1 =
      (rows.filter fun r =>
        (decide (ps ≤ r.date) && decide (r.date ≤ pe)) && !(r.ref == "OB")).map
        fun r => ⟨r.date, r.ref, r.desc, fillNum r.debit - fillNum r.credit⟩) ∧
    ((load_bank_statement rows ps pe).1 =
      (rows.filter fun r =>
        (decide (ps ≤ r.date) && decide (r.date ≤ pe)) && !(r.ref == "OB")).map
        fun r => ⟨r.date, r.ref, r.desc, fillNum r.credit - fillNum r.debit⟩) ∧
    (rows.filter (fun r => decide (r.date < ps)) = [] →
      (load_cash_ledger rows ps pe).2.1 = some 0 ∧
      (load_bank_statement rows ps pe).2.1 = some 0) ∧
    (∀ (l : List SrcRow) (r0 : SrcRow),
      rows.filter (fun r => decide (r.date < ps)) = l ++ [r0] →
      (load_cash_ledger rows ps pe).2.1 = r0.balance ∧
      (load_bank_statement rows ps pe).2.1 = r0.balance) ∧
    (∀ (l : List SrcRow) (r0 : SrcRow),
      rows.filter (fun r => decide (r.date ≤ pe)) = l ++ [r0] →
      (load_cash_ledger rows ps pe).2.2 = r0.balance ∧
      (load_bank_statement rows ps pe).2.2 = r0.balance) := by
  refine ⟨?_, ?_, ?_, ?_, ?_⟩
  · simp only [load_cash_ledger, List.filter_filter]
    rw [filter_fill_comm rows
      (fun a => !(a.ref == "OB") && (decide (ps ≤ a.date) && decide (a.date ≤ pe)))
      (fun r => rfl), List.map_map]
    rw [List.filter_congr (fun x _ => Bool.and_comm _ _)]
    exact List.map_congr_left fun r _ => rfl
  · simp only [load_bank_statement, List.filter_filter]
    rw [filter_fill_comm rows
      (fun a => !(a.ref == "OB") && (decide (ps ≤ a.date) && decide (a.date ≤ pe)))
      (fun r => rfl), List.map_map]
    rw [List.filter_congr (fun x _ => Bool.and_comm _ _)]
    exact List.map_congr_left fun r _ => rfl
  · intro h
    rw [load_cash_ledger_opening, load_bank_statement_opening, h]
    exact ⟨rfl, rfl⟩
  · intro l r0 h
    rw [load_cash_ledger_opening, load_bank_statement_opening, h, List.getLast?_concat]
    exact ⟨rfl, rfl⟩
  · intro l r0 h
    rw [load_cash_ledger_closing, load_bank_statement_closing, h, List.getLast?_concat]
    exact ⟨rfl, rfl⟩

/-- Witness for C6: a two-row ledger whose `OB` row dates before the period. -/
theorem c6_period_loader_witness :
    (load_cash_ledger [obRow, saleRow] 1 1).2.1 = obRow.balance ∧
    (load_cash_ledger [obRow, saleRow] 1 1).2.2 = saleRow.balance :=
  ⟨((c6_period_loader [obRow, saleRow] 1 1).2.2.2.1 [] obRow rfl).1,
   ((c6_period_loader [obRow, saleRow] 1 1).2.2.2.2 [obRow] saleRow rfl).1⟩

/-- Counterexample to C9 as stated: a row whose `Balance` cell is non-numeric
is NOT coerced to 0 — the loader's opening balance extraction returns the NaN
(`none`), not 0, so a downstream computation does see a non-numeric balance. -/
theorem c9_counterexample :
    (load_cash_ledger [nanRow] 1 1).2.1 = none ∧
    (load_cash_ledger [nanRow] 1 1).2.1 ≠ some 0 := by
  refine ⟨rfl, ?_⟩
  intro h
  exact Option.noConfusion (rfl.trans h : (none : Option ℚ) = some 0)

/-- C9 (amended): non-numeric or blank cells of a PRESENT `Debit` / `Credit`
column are coerced to 0 before sign normalization — pre-filling those cells
with 0 leaves every loader output unchanged, and the column-aware bank loader
with both optional columns present coincides with the plain one (all amounts
numeric). The claim fails beyond that: the `Balance` column is never filled
(a non-numeric `Balance` reaches balance extraction as NaN), and when an
optional `Debit` / `Credit` column is absent the `fillna(0)` runs on the empty
default Series before index alignment, so every period-row signed amount is
NaN, not numeric. -/
theorem c9_numeric_coercion (rows : List SrcRow) (ps pe : Int) :
    (load_cash_ledger (rows.map fillDebitCredit) ps pe = load_cash_ledger rows ps pe ∧
     load_bank_statement (rows.map fillDebitCredit) ps pe =
       load_bank_statement rows ps pe) ∧
    ((load_bank_statement_cols true true rows ps pe).1 =
      (load_bank_statement rows ps pe).1.map
        fun r => ⟨r.date, r.ref, r.desc, some r.amount⟩) ∧
    ((load_bank_statement_cols true true rows ps pe).2 =
      (load_bank_statement rows ps pe).2) ∧
    (∀ hasDebit hasCredit : Bool, hasDebit = false ∨ hasCredit = false →
      ∀ pr ∈ (load_bank_statement_cols hasDebit hasCredit rows ps pe).1,
        pr.amount = none) := by
  have hdf : (rows.map fillDebitCredit).map fillDebitCredit = rows.map fillDebitCredit := by
    rw [List.map_map]
    exact List.map_congr_left fun r _ => rfl
  have hdfc : rows.map (fun r : SrcRow =>
      { r with debit := optColumnCell true r.debit,
               credit := optColumnCell true r.credit }) = rows.map fillDebitCredit :=
    List.map_congr_left fun r _ => rfl
  refine ⟨⟨?_, ?_⟩, ?_, ?_, ?_⟩
  · simp only [load_cash_ledger, hdf]
  · simp only [load_bank_statement, hdf]
  · simp only [load_bank_statement_cols, load_bank_statement, hdfc, List.filter_filter]
    rw [filter_fill_comm rows
      (fun a => !(a.ref == "OB") && (decide (ps ≤ a.date) && decide (a.date ≤ pe)))
      (fun r => rfl)]
    simp only [List.map_map]
    exact List.map_congr_left fun r _ => rfl
  · simp only [load_bank_statement_cols, load_bank_statement, hdfc]
  · intro hasDebit hasCredit hcase pr hpr
    simp only [load_bank_statement_cols, List.filter_filter, List.filter_map,
      List.map_map] at hpr
    obtain ⟨r0, _, rfl⟩ := List.mem_map.mp hpr
    rcases hcase with rfl | rfl
    · show subNaN (optColumnCell hasCredit r0.credit) (optColumnCell false r0.debit) = none
      cases optColumnCell hasCredit r0.credit <;> rfl
    · show subNaN (optColumnCell false r0.credit) (optColumnCell hasDebit r0.debit) = none
      cases optColumnCell hasDebit r0.debit <;> rfl

/-- Witness for C9 (amended): with the Debit column absent, the single period
row built from `saleRow` carries a NaN amount. -/
theorem c9_numeric_coercion_witness : nanAmountRow.amount = none :=
  (c9_numeric_coercion [saleRow] 1 1).2.2.2 false true (Or.inl rfl) nanAmountRow
    (show nanAmountRow ∈ [nanAmountRow] from List.mem_singleton_self nanAmountRow)

/-- C10: when no row is dated at or before the period end the loaders do not
fail; the closing balance falls back to the computed opening balance, which is
0.0 when no row is dated strictly before the period start either. -/
theorem c10_closing_fallback (rows : List SrcRow) (ps pe : Int) :
    (rows.filter (fun r => decide (r.date ≤ pe)) = [] →
      (load_cash_ledger rows ps pe).2.2 = (load_cash_ledger rows ps pe).2.1 ∧
      (load_bank_statement rows ps pe).2.2 = (load_bank_statement rows ps pe).2.1) ∧
    (rows.filter (fun r => decide (r.date ≤ pe)) = [] →
      rows.filter (fun r => decide (r.date < ps)) = [] →
      (load_cash_ledger rows ps pe).2.2 = some 0 ∧
      (load_bank_statement rows ps pe).2.2 = some 0) := by
  constructor
  · intro h
    rw [load_cash_ledger_closing, load_bank_statement_closing, h]
    exact ⟨rfl, rfl⟩
  · intro h h2
    rw [load_cash_ledger_closing, load_bank_statement_closing, h]
    rw [load_cash_ledger_opening, load_bank_statement_opening, h2]
    exact ⟨rfl, rfl⟩

/-- Witness for C10: the empty source has closing balance 0.0. -/
theorem c10_closing_fallback_witness :
    (load_cash_ledger [] 1 2).2.2 = some 0 ∧
    (load_bank_statement [] 1 2).2.2 = some 0 :=
  (c10_closing_fallback [] 1 2).2 rfl rfl

end BankRecon
